import Mathlib

/-!
Verification of `src/renderer/caching_shaper.rs` (neovide): a shallow
embedding of `CachingShaper` — its two LRU caches, the font resolution in
`get_font`, the run segmentation in `shape`, the memoisation in
`shape_cached`, `clear`, and the cell-dimension estimator
`font_base_dimensions` — together with theorems settling the spec claims.

Modelling conventions:
* The external collaborators (font-kit's `SystemSource`, skribo's `layout`
  and `layout_run`) are packaged into an explicit `Env` of pure functions.
* A Rust panic (`expect` / `unwrap` on `None`, i.e. a process abort) is
  modelled as the `Option.none` outcome of the embedded function; `some`
  is a normal return.  No error values exist in the source, so `none` is
  its only failure channel.
* Rust `f32` glyph coordinates and metrics are modelled as exact rationals
  (`ℚ`).  The one place where float identity (as opposed to numeric value)
  matters — the `base_size.to_string()` cache-key hack — is modelled by the
  dedicated type `F32` below, which keeps the sign of IEEE-754 negative
  zero, the only way two distinct `f32` bit patterns compare `==`.
* Machine integers (`u16 scale`, counters) carry no overflow-relevant
  arithmetic here and are modelled as `Nat`.
-/

set_option autoImplicit false

namespace CachingShaperModel

/-- Model of the Rust `f32` values used as `base_size` inputs.  `num q` is a
float whose numeric value is the rational `q` (sign bit = sign of `q`);
`negZero` is IEEE-754 `-0.0`, the only value that is `==`-equal to a float
with a different bit pattern (`0.0`).  NaN is omitted: it is numerically
equal to nothing, so it cannot occur in a numerically-equal pair. -/
inductive F32 where
  | num (q : ℚ)
  | negZero
deriving DecidableEq

/-- Numeric value of a modelled float. -/
def F32.val : F32 → ℚ
  | .num q => q
  | .negZero => 0

/-- IEEE-754 `==` on the modelled floats (Rust `PartialEq for f32`):
comparison by numeric value, so `0.0 == -0.0` holds. -/
def F32.numEq (a b : F32) : Prop := a.val = b.val

instance (a b : F32) : Decidable (F32.numEq a b) := by
  unfold F32.numEq; infer_instance

/-- Deterministic decimal rendering of a rational, standing in for the
digits Rust's `Display` would print.  Only two facts about the real
formatter are relied on by the development: it is a function of the value,
and it never prints a leading minus sign for a non-negative value. -/
def ratToString (q : ℚ) : String :=
  toString q.num ++ "/" ++ toString q.den

/-- Rust `f32::to_string` as used at `base_size.to_string()`
(caching_shaper.rs lines 91/119/140).  Rust's formatter prints the sign
bit, so `(-0.0f32).to_string() == "-0"` while `(0.0f32).to_string() ==
"0"` — two different strings for two `==`-equal floats. -/
def F32.toRustString : F32 → String
  | .num q => ratToString q
  | .negZero => "-0"

/-- Font metrics as read off a loaded font (`font.metrics()`): ascent,
descent and units-per-em, modelled as exact rationals. -/
structure FontMetrics where
  ascent : ℚ
  descent : ℚ
  unitsPerEm : ℚ
deriving DecidableEq

/-- A loaded font resource: its `full_name()` identity string and its
metrics.  Stands for font-kit's loaded `Font` inside skribo's `FontRef`. -/
structure LoadedFont where
  full_name : String
  metrics : FontMetrics
deriving DecidableEq

/-- `FontCollection`: the ordered list of families added by `get_font`
(fallback first, requested family second). -/
abbrev FontCollection := List LoadedFont

/-- A positioned glyph as produced by skribo's layout: `glyph.glyph_id`,
`glyph.offset.x`, and the resolved font's `full_name()` and `metrics()`
(`glyph.font.font` in the source, flattened here). -/
structure Glyph where
  fontName : String
  fontMetrics : FontMetrics
  glyph_id : Nat
  offsetX : ℚ
deriving DecidableEq

/-- caching_shaper.rs lines 16–23: the font cache key.  `base_size` is a
`String` in the source ("hack because comparison of floats doesn't work"),
produced by `to_string()` on the `f32` size input. -/
structure FontKey where
  name : String
  base_size : String
  scale : Nat
  bold : Bool
  italic : Bool
deriving DecidableEq

/-- caching_shaper.rs lines 25–29: the shape-result cache key. -/
structure ShapeKey where
  text : String
  font_key : FontKey
deriving DecidableEq

/-- Model of the `lru` crate's `LruCache`: an association list ordered
most-recently-used first, bounded by `cap`.  `put` inserts at the front and
drops beyond capacity (evicting the least-recently-used tail entry);
`get` moves the hit entry to the front; `contains` does not touch recency,
matching `LruCache::contains`. -/
structure Lru (K V : Type) where
  cap : Nat
  entries : List (K × V)
deriving DecidableEq

namespace Lru

variable {K V : Type} [DecidableEq K]

/-- Value stored under `k`, if present (no recency change). -/
def lookup (c : Lru K V) (k : K) : Option V :=
  (c.entries.find? (fun e => decide (e.1 = k))).map (·.2)

/-- `LruCache::contains`: membership test without recency update. -/
def contains (c : Lru K V) (k : K) : Bool :=
  (c.lookup k).isSome

/-- `LruCache::get`: on a hit returns the value and the cache with the
entry moved to the front of the recency order. -/
def get (c : Lru K V) (k : K) : Option (V × Lru K V) :=
  match c.lookup k with
  | some v => some (v, ⟨c.cap, (k, v) :: c.entries.filter (fun e => !decide (e.1 = k))⟩)
  | none => none

/-- `LruCache::put`: insert (or update) at the front of the recency order,
evicting from the least-recently-used end down to capacity. -/
def put (c : Lru K V) (k : K) (v : V) : Lru K V :=
  ⟨c.cap, ((k, v) :: c.entries.filter (fun e => !decide (e.1 = k))).take c.cap⟩

/-- `LruCache::clear`: drop every entry. -/
def clear (c : Lru K V) : Lru K V :=
  ⟨c.cap, []⟩

end Lru

/-- A built text blob (skia `TextBlob` via `TextBlobBuilder`): one
horizontal run of glyph ids and x-positions at a fixed baseline ascent. -/
structure TextBlob where
  ascent : ℚ
  glyphIds : List Nat
  positions : List ℚ
deriving DecidableEq

/-- caching_shaper.rs lines 72–88: `make_blob`.  Reads the metrics of
`glyphs[0]` (a panic on an empty run, modelled as `none`), computes the
baseline ascent `metrics.ascent * base_size / metrics.units_per_em`, and
fills the run with the glyph ids and the `offset.x` positions of the input
glyphs.  (The source's two fill loops shadow the input `glyphs` binding
with the builder's output buffer; the evident intent — ids and positions
taken from the input glyph sequence — is embedded.) -/
def make_blob (glyphs : List Glyph) (base_size : ℚ) : Option TextBlob :=
  match glyphs with
  | [] => none
  | g0 :: _ =>
    some { ascent := g0.fontMetrics.ascent * base_size / g0.fontMetrics.unitsPerEm,
           glyphIds := glyphs.map (·.glyph_id),
           positions := glyphs.map (·.offsetX) }

/-- The external collaborators of `CachingShaper`, packaged as pure
functions: `selectFamily name` models
`SystemSource::new().select_family_by_name(name)?.fonts()[0].load()` — a
`none` means the family is missing or fails to load, where the source
panics via `.expect(...)` / `.unwrap()`.  `layout size collection text`
and `layout_run size font text` model skribo's layout calls, returning the
positioned glyph sequence for the given style size. -/
structure Env where
  selectFamily : String → Option LoadedFont
  layout : ℚ → FontCollection → String → List Glyph
  layout_run : ℚ → FontCollection → String → List Glyph

/-- caching_shaper.rs lines 31–34: the two LRU caches of `CachingShaper`. -/
structure CachingShaper where
  font_cache : Lru FontKey FontCollection
  blob_cache : Lru ShapeKey (List (String × TextBlob))
deriving DecidableEq

/-- caching_shaper.rs line 14: the 62-character reference string used by
`font_base_dimensions`. -/
def standard_character_string : String :=
  "abcdefghijklmnopqrstuvwxyzABCDEFGHIJKLMNOPQRSTUVWXYZ1234567890"

/-- caching_shaper.rs lines 37–42: `CachingShaper::new`, with cache
capacities 100 (fonts) and 10000 (shape results). -/
def CachingShaper.new : CachingShaper :=
  ⟨⟨100, []⟩, ⟨10000, []⟩⟩

/-- caching_shaper.rs lines 44–70: `get_font`.  On a miss the source loads
the emoji-fallback family "Segoe UI Emoji" (panicking via `.expect` if it
is missing and `.unwrap` if it fails to load), then the requested family
(same panics), builds the collection fallback-first, and `put`s it; in all
cases it finishes with `font_cache.get(font_key).unwrap()`, which also
refreshes the entry's recency.  `none` models the panics. -/
def get_font (env : Env) (s : CachingShaper) (font_key : FontKey) :
    Option (FontCollection × CachingShaper) :=
  let cacheAfterFill : Option (Lru FontKey FontCollection) :=
    if s.font_cache.contains font_key then
      some s.font_cache
    else
      match env.selectFamily "Segoe UI Emoji" with
      | none => none
      | some emoji_font =>
        match env.selectFamily font_key.name with
        | none => none
        | some font =>
          some (s.font_cache.put font_key [emoji_font, font])
  match cacheAfterFill with
  | none => none
  | some c =>
    match c.get font_key with
    | some (collection, c2) => some (collection, { s with font_cache := c2 })
    | none => none

/-- caching_shaper.rs lines 91/119/140: `FontKey::new(name,
base_size.to_string(), scale, bold, italic)` applied to the raw call
arguments. -/
def fontKeyOf (font_name : String) (base_size : F32) (scale : Nat)
    (bold italic : Bool) : FontKey :=
  ⟨font_name, base_size.toRustString, scale, bold, italic⟩

/-- caching_shaper.rs line 120: `ShapeKey::new(text.to_string(), font_key)`. -/
def shapeKeyOf (text font_name : String) (base_size : F32) (scale : Nat)
    (bold italic : Bool) : ShapeKey :=
  ⟨text, fontKeyOf font_name base_size scale bold italic⟩

/-- caching_shaper.rs lines 99–114: the segmentation loop of `shape`.
State: the closed `blobs` so far, the accumulating `current_run`, and
`current_font` (the `full_name` of the run's font, `none` before the first
glyph).  A glyph whose font name differs from `current_font` closes the
current run through `make_blob` (labelled with the old font name) and
starts a new run; after the loop a non-empty final run is closed, with the
source's `current_font.unwrap()` modelled by the impossible `none` arm. -/
def shapeLoop (base_size : ℚ) :
    List Glyph → List (String × TextBlob) → List Glyph → Option String →
    Option (List (String × TextBlob))
  | [], blobs, run, curFont =>
      if 0 < run.length then
        match curFont, make_blob run base_size with
        | some name, some blob => some (blobs ++ [(name, blob)])
        | _, _ => none
      else
        some blobs
  | g :: rest, blobs, run, curFont =>
      match curFont with
      | some name =>
          if g.fontName ≠ name then
            match make_blob run base_size with
            | none => none
            | some blob =>
                shapeLoop base_size rest (blobs ++ [(name, blob)]) [g] (some g.fontName)
          else
            shapeLoop base_size rest blobs (run ++ [g]) (some g.fontName)
      | none =>
          shapeLoop base_size rest blobs (run ++ [g]) (some g.fontName)

/-- The segmentation of a full glyph sequence, starting from the loop's
initial state (`blobs = []`, empty run, no current font). -/
def shapeGlyphs (base_size : ℚ) (glyphs : List Glyph) :
    Option (List (String × TextBlob)) :=
  shapeLoop base_size glyphs [] [] none

/-- caching_shaper.rs lines 90–116: `shape`.  Builds the `FontKey`,
resolves the collection through `get_font` (its panics propagate), invokes
the layout engine with style size `base_size * scale`, and segments the
resulting glyph sequence into per-font blobs. -/
def shape (env : Env) (s : CachingShaper) (text font_name : String)
    (base_size : F32) (scale : Nat) (bold italic : Bool) :
    Option (List (String × TextBlob) × CachingShaper) :=
  let font_key := fontKeyOf font_name base_size scale bold italic
  match get_font env s font_key with
  | none => none
  | some (font_collection, s1) =>
    let styleSize := base_size.val * (scale : ℚ)
    let glyphs := env.layout styleSize font_collection text
    match shapeGlyphs base_size.val glyphs with
    | none => none
    | some blobs => some (blobs, s1)

/-- caching_shaper.rs lines 118–127: `shape_cached`.  Builds the
`ShapeKey`; on a `blob_cache` miss calls `shape` and `put`s the result;
in all cases finishes with `blob_cache.get(&key).unwrap()`.  The returned
`Nat` instruments the number of `shape` invocations the call performed
(0 on a hit, 1 on a miss), so that cache-hit claims can be stated. -/
def shape_cached (env : Env) (s : CachingShaper) (text font_name : String)
    (base_size : F32) (scale : Nat) (bold italic : Bool) :
    Option (List (String × TextBlob) × CachingShaper × Nat) :=
  let key := shapeKeyOf text font_name base_size scale bold italic
  if s.blob_cache.contains key then
    match s.blob_cache.get key with
    | some (v, bc) => some (v, { s with blob_cache := bc }, 0)
    | none => none
  else
    match shape env s text font_name base_size scale bold italic with
    | none => none
    | some (blob, s1) =>
      let s2 : CachingShaper := { s1 with blob_cache := s1.blob_cache.put key blob }
      match s2.blob_cache.get key with
      | some (v, bc) => some (v, { s2 with blob_cache := bc }, 1)
      | none => none

/-- caching_shaper.rs lines 129–132: `clear` empties both caches. -/
def CachingShaper.clear (s : CachingShaper) : CachingShaper :=
  ⟨s.font_cache.clear, s.blob_cache.clear⟩

/-- Consecutive deltas of the glyph x-offsets:
`glyph_offsets.windows(2).map(|pair| pair[1] - pair[0])`
(caching_shaper.rs line 145). -/
def advancesOf (offsets : List ℚ) : List ℚ :=
  (offsets.zip offsets.tail).map (fun p => p.2 - p.1)

/-- One step of the advance bucketing (caching_shaper.rs lines 148–152):
`amounts.entry(advance).and_modify(|e| e += 1).or_insert(1)`.  Buckets are
kept in first-insertion order; the source buckets by
`advance.to_string()`, which for the exact rational values modelled here
coincides with bucketing by value. -/
def bumpBucket (l : List (ℚ × Nat)) (q : ℚ) : List (ℚ × Nat) :=
  if l.any (fun e => decide (e.1 = q)) then
    l.map (fun e => if e.1 = q then (e.1, e.2 + 1) else e)
  else
    l ++ [(q, 1)]

/-- The advance-frequency table of a list of advances. -/
def bucketCounts (advances : List ℚ) : List (ℚ × Nat) :=
  advances.foldl bumpBucket []

/-- `amounts.into_iter().max_by_key(|(_, count)| count)` (caching_shaper.rs
line 153): Rust's `max_by_key` returns the last maximal element of the
iteration, `None` on an empty iterator (the source `.unwrap()`s it). -/
def maxByCountLast (l : List (ℚ × Nat)) : Option (ℚ × Nat) :=
  l.foldl
    (fun acc e =>
      match acc with
      | none => some e
      | some b => if b.2 ≤ e.2 then some e else some b)
    none

/-- Modelled from the spec: `FontLookup` (from `super::fonts`, a file of
this repository that is absent from `src/`).  Per §4.4 and the call sites
in `font_base_dimensions`, it supplies the font's `name`, its `base_size`,
and — through `font_lookup.size(1).normal.metrics()` — the metrics of the
normal font at scale 1. -/
structure FontLookup where
  name : String
  base_size : F32
  normalMetrics : FontMetrics

/-- caching_shaper.rs lines 134–157: `font_base_dimensions`.  Height is
`descent - ascent` of the scale-1 normal font's metrics; width shapes the
62-character reference string through `layout_run`, takes consecutive
offset deltas as advances, buckets them by frequency, and picks a most
frequent advance via `max_by_key` — whose result is `.unwrap()`ed, a panic
(modelled `none`) when there are no advances (fewer than 2 glyphs). -/
def font_base_dimensions (env : Env) (s : CachingShaper) (fl : FontLookup) :
    Option ((ℚ × ℚ) × CachingShaper) :=
  let font_height := fl.normalMetrics.descent - fl.normalMetrics.ascent
  let font_key := fontKeyOf fl.name fl.base_size 1 false false
  match get_font env s font_key with
  | none => none
  | some (font_ref, s1) =>
    let glyphs := env.layout_run fl.base_size.val font_ref standard_character_string
    let glyph_offsets := glyphs.map (·.offsetX)
    let glyph_advances := advancesOf glyph_offsets
    match maxByCountLast (bucketCounts glyph_advances) with
    | none => none
    | some (font_width, _) => some ((font_width, font_height), s1)

/-- Total variant of `make_blob` for a run already known non-empty (a
closed run always is); on `[]` it yields an inert empty blob. -/
def blobOfRun (run : List Glyph) (base_size : ℚ) : TextBlob :=
  match run.head? with
  | none => ⟨0, [], []⟩
  | some g0 =>
    ⟨g0.fontMetrics.ascent * base_size / g0.fontMetrics.unitsPerEm,
     run.map (·.glyph_id), run.map (·.offsetX)⟩

/-- Written from the spec's words (§4.2 step 4, claim C3), for comparison
with the source's segmentation loop: extend the following chunking with
one glyph at the front, merging it into the first chunk when the font
name matches and opening a fresh run otherwise. -/
def prependRun (n : String) (run : List Glyph) :
    List (String × List Glyph) → List (String × List Glyph)
  | [] => [(n, run)]
  | (m, r) :: t => if m = n then (n, run ++ r) :: t else (n, run) :: (m, r) :: t

/-- Written from the spec's words (§4.2 step 4, claim C3): the maximal
contiguous same-font-name chunking of a glyph sequence, each chunk labelled
with its font name. -/
def specChunkRuns : List Glyph → List (String × List Glyph)
  | [] => []
  | g :: rest => prependRun g.fontName [g] (specChunkRuns rest)

/-! Concrete inputs used by witnesses, counterexamples and the testable
properties quoted in the claims. -/

/-- Degenerate metrics for fonts whose metrics play no role. -/
def metrics0 : FontMetrics := ⟨0, 0, 1⟩

/-- A loaded font named "A". -/
def fontA : LoadedFont := ⟨"A", metrics0⟩

/-- A glyph resolved to font name "A". -/
def gA (i : Nat) : Glyph := ⟨"A", metrics0, i, 0⟩

/-- A glyph resolved to font name "B". -/
def gB (i : Nat) : Glyph := ⟨"B", metrics0, i, 0⟩

/-- The synthetic glyph sequence with fonts [A,A,B,B,B,A] of claim C3. -/
def glyphsAABBBA : List Glyph := [gA 0, gA 1, gB 2, gB 3, gB 4, gA 5]

/-- A loaded font named "W". -/
def fontW : LoadedFont := ⟨"W", metrics0⟩

/-- An environment in which every family resolves to `fontW` and the
layout engine returns no glyphs for any input. -/
def envW : Env := ⟨fun _ => some fontW, fun _ _ _ => [], fun _ _ _ => []⟩

/-- The font key built by a call with name "W", size 2, scale 1. -/
def fkW : FontKey := fontKeyOf "W" (F32.num 2) 1 false false

/-- The shape key of the call `shape_cached "a" "W" 2 1 false false`. -/
def skW : ShapeKey := shapeKeyOf "a" "W" (F32.num 2) 1 false false

/-- The `CachingShaper` state after `shape_cached envW new "a" "W" 2 1
false false`: both caches hold exactly that call's entry. -/
def s1W : CachingShaper := ⟨⟨100, [(fkW, [fontW, fontW])]⟩, ⟨10000, [(skW, [])]⟩⟩

/-- The state after `shape envW new "" "W" 2 1 false false`: the font
cache holds the resolved collection, the blob cache is untouched. -/
def sFW : CachingShaper := ⟨⟨100, [(fkW, [fontW, fontW])]⟩, ⟨10000, []⟩⟩

/-- The collection `get_font` builds in `envW`: fallback first, then the
requested family (both resolve to `fontW` there). -/
def collW : FontCollection := [fontW, fontW]

/-- Metrics with ascent −10 and descent 4 (height 14) for claim C7. -/
def metricsC7 : FontMetrics := ⟨-10, 4, 1⟩

/-- A claim-C7 reference-string glyph at horizontal offset `q`. -/
def gOff (q : ℚ) : Glyph := ⟨"M", metricsC7, 0, q⟩

/-- Claim C7's environment: the reference string lays out to seven glyphs
at offsets [0,5,10,15,22,27,33], so the advances are [5,5,5,7,5,6]. -/
def envC7 : Env :=
  ⟨fun _ => some ⟨"M", metricsC7⟩, fun _ _ _ => [],
   fun _ _ _ => [gOff 0, gOff 5, gOff 10, gOff 15, gOff 22, gOff 27, gOff 33]⟩

/-- Claim C7's font lookup: family "Mono" at base size 12. -/
def flC7 : FontLookup := ⟨"Mono", F32.num 12, metricsC7⟩

/-- Claim C4's environment: fonts resolve, but the reference string lays
out to a single glyph. -/
def envC4 : Env :=
  ⟨fun _ => some fontW, fun _ _ _ => [], fun _ _ _ => [gOff 7]⟩

/-- Claim C4's font lookup. -/
def flC4 : FontLookup := ⟨"Mono", F32.num 12, metricsC7⟩

/-- Claim C5's environment: the emoji-fallback family "Segoe UI Emoji" is
missing, every other family (in particular the primary one) resolves. -/
def envC5 : Env :=
  ⟨fun name => if name = "Segoe UI Emoji" then none else some fontW,
   fun _ _ _ => [], fun _ _ _ => []⟩

/-- The font key of claim C5's primary request. -/
def kC5 : FontKey := ⟨"MonoFont", "12", 1, false, false⟩

/-- Claim C6's environment: the emoji fallback resolves but the requested
primary family does not. -/
def envC6 : Env :=
  ⟨fun name => if name = "Segoe UI Emoji" then some fontW else none,
   fun _ _ _ => [], fun _ _ _ => []⟩

/-- The font key of claim C6's primary request (family "MissingFont"). -/
def kC6 : FontKey := ⟨"MissingFont", "12", 1, false, false⟩

/-- The font key `font_base_dimensions` builds for `flC4`. -/
def fkC4 : FontKey := fontKeyOf "Mono" (F32.num 12) 1 false false

/-- The state after `get_font envC4 new fkC4`: the font cache holds the
resolved collection. -/
def sC4 : CachingShaper := ⟨⟨100, [(fkC4, [fontW, fontW])]⟩, ⟨10000, []⟩⟩

/-- The collection `get_font` builds in `envC7`. -/
def collC7 : FontCollection := [⟨"M", metricsC7⟩, ⟨"M", metricsC7⟩]

/-- The font key `font_base_dimensions` builds for `flC7`. -/
def fkC7 : FontKey := fontKeyOf "Mono" (F32.num 12) 1 false false

/-- The state after `get_font envC7 new fkC7`. -/
def sC7 : CachingShaper := ⟨⟨100, [(fkC7, collC7)]⟩, ⟨10000, []⟩⟩

/-! ## Lemmas about the LRU cache model -/

namespace Lru

variable {K V : Type} [DecidableEq K]

theorem lookup_cons_self (cap : Nat) (k : K) (v : V) (rest : List (K × V)) :
    lookup ⟨cap, (k, v) :: rest⟩ k = some v := by
  simp [lookup, List.find?]

theorem contains_of_lookup {c : Lru K V} {k : K} {v : V}
    (h : c.lookup k = some v) : c.contains k = true := by
  simp [contains, h]

theorem get_of_lookup {c : Lru K V} {k : K} {v : V} (h : c.lookup k = some v) :
    c.get k = some (v, ⟨c.cap, (k, v) :: c.entries.filter (fun e => !decide (e.1 = k))⟩) := by
  simp [get, h]

theorem get_lookup_self {c : Lru K V} {k : K} {v : V} {c' : Lru K V}
    (h : c.get k = some (v, c')) : c'.lookup k = some v := by
  unfold get at h
  cases hl : c.lookup k with
  | none => rw [hl] at h; exact absurd h (by simp)
  | some w =>
    rw [hl] at h
    injection h with h1
    injection h1 with h2 h3
    subst h2; subst h3
    exact lookup_cons_self _ _ _ _

theorem put_lookup_self (c : Lru K V) (k : K) (v : V) (hcap : 0 < c.cap) :
    (c.put k v).lookup k = some v := by
  obtain ⟨n, hn⟩ := Nat.exists_eq_add_of_lt hcap
  unfold put
  rw [hn]
  simp [Nat.add_comm, List.take_succ_cons, lookup, List.find?]

end Lru

/-! ## Lemmas about run segmentation -/

theorem make_blob_of_ne_nil {run : List Glyph} (bs : ℚ) (h : run ≠ []) :
    make_blob run bs = some (blobOfRun run bs) := by
  cases run with
  | nil => exact absurd rfl h
  | cons g r => simp [make_blob, blobOfRun]

theorem prependRun_exists_head (n : String) (run : List Glyph)
    (C : List (String × List Glyph)) :
    ∃ r t, prependRun n run C = (n, r) :: t := by
  cases C with
  | nil => exact ⟨run, [], rfl⟩
  | cons p t =>
    obtain ⟨m, r⟩ := p
    by_cases h : m = n
    · exact ⟨run ++ r, t, by simp [prependRun, h]⟩
    · exact ⟨run, (m, r) :: t, by simp [prependRun, h]⟩

theorem prependRun_merge (n : String) (run : List Glyph) (g : Glyph)
    (C : List (String × List Glyph)) :
    prependRun n run (prependRun n [g] C) = prependRun n (run ++ [g]) C := by
  cases C with
  | nil => simp [prependRun]
  | cons p t =>
    obtain ⟨m, r⟩ := p
    by_cases h : m = n <;> simp [prependRun, h]

theorem shapeLoop_eq_chunks (bs : ℚ) :
    ∀ (gs run : List Glyph) (blobs : List (String × TextBlob)) (n : String),
      run ≠ [] →
      shapeLoop bs gs blobs run (some n)
        = some (blobs ++ (prependRun n run (specChunkRuns gs)).map
            (fun p => (p.1, blobOfRun p.2 bs))) := by
  intro gs
  induction gs with
  | nil =>
    intro run blobs n hrun
    have hlen : 0 < run.length := List.length_pos.mpr hrun
    simp [shapeLoop, hlen, make_blob_of_ne_nil bs hrun, specChunkRuns, prependRun]
  | cons g rest ih =>
    intro run blobs n hrun
    by_cases h : g.fontName = n
    · rw [shapeLoop, if_neg (by simp [h])]
      rw [h, ih (run ++ [g]) blobs n (by simp)]
      rw [specChunkRuns, h, prependRun_merge]
    · rw [shapeLoop, if_pos h, make_blob_of_ne_nil bs hrun]
      show shapeLoop bs rest (blobs ++ [(n, blobOfRun run bs)]) [g] (some g.fontName) = _
      rw [ih [g] (blobs ++ [(n, blobOfRun run bs)]) g.fontName (by simp)]
      obtain ⟨r, t, hD⟩ := prependRun_exists_head g.fontName [g] (specChunkRuns rest)
      rw [specChunkRuns, hD, prependRun, if_neg h]
      simp

theorem shapeGlyphs_eq_chunks (bs : ℚ) (gs : List Glyph) :
    shapeGlyphs bs gs
      = some ((specChunkRuns gs).map (fun p => (p.1, blobOfRun p.2 bs))) := by
  cases gs with
  | nil => rfl
  | cons g rest =>
    show shapeLoop bs rest [] ([] ++ [g]) (some g.fontName) = _
    rw [shapeLoop_eq_chunks bs rest ([] ++ [g]) [] g.fontName (by simp)]
    simp [specChunkRuns]

theorem prependRun_flat (n : String) (run : List Glyph)
    (C : List (String × List Glyph)) :
    (prependRun n run C).flatMap (·.2) = run ++ C.flatMap (·.2) := by
  cases C with
  | nil => simp [prependRun]
  | cons p t =>
    obtain ⟨m, r⟩ := p
    by_cases h : m = n <;> simp [prependRun, h]

theorem specChunkRuns_flat (gs : List Glyph) :
    (specChunkRuns gs).flatMap (·.2) = gs := by
  induction gs with
  | nil => rfl
  | cons g rest ih => simp [specChunkRuns, prependRun_flat, ih]

/-- Each chunk is non-empty and every glyph in it carries the chunk's
font-name label. -/
def RunsWellFormed (C : List (String × List Glyph)) : Prop :=
  ∀ p ∈ C, p.2 ≠ [] ∧ ∀ g ∈ p.2, g.fontName = p.1

theorem prependRun_wf {n : String} {run : List Glyph}
    {C : List (String × List Glyph)} (hrun : run ≠ [])
    (hall : ∀ g ∈ run, g.fontName = n) (hC : RunsWellFormed C) :
    RunsWellFormed (prependRun n run C) := by
  cases C with
  | nil =>
    intro p hp
    simp only [prependRun, List.mem_singleton] at hp
    subst hp
    exact ⟨hrun, hall⟩
  | cons q t =>
    obtain ⟨m, r⟩ := q
    by_cases h : m = n
    · intro p hp
      simp only [prependRun, if_pos h, List.mem_cons] at hp
      rcases hp with hp | hp
      · subst hp
        refine ⟨by simp [hrun], ?_⟩
        intro g hg
        rcases List.mem_append.mp hg with hg | hg
        · exact hall g hg
        · have := (hC (m, r) (by simp)).2 g hg
          simpa [h] using this
      · exact hC p (by simp [hp])
    · intro p hp
      simp only [prependRun, if_neg h, List.mem_cons] at hp
      rcases hp with hp | hp
      · subst hp; exact ⟨hrun, hall⟩
      · rcases hp with hp | hp
        · subst hp; exact hC (m, r) (by simp)
        · exact hC p (by simp [hp])

theorem specChunkRuns_wf (gs : List Glyph) :
    RunsWellFormed (specChunkRuns gs) := by
  induction gs with
  | nil => intro p hp; simp [specChunkRuns] at hp
  | cons g rest ih =>
    exact prependRun_wf (by simp) (by simp) ih

theorem prependRun_chain {n : String} {run : List Glyph}
    {C : List (String × List Glyph)}
    (hC : List.Chain' (fun a b => a.1 ≠ b.1) C) :
    List.Chain' (fun a b => a.1 ≠ b.1) (prependRun n run C) := by
  cases C with
  | nil => simp [prependRun]
  | cons q t =>
    obtain ⟨m, r⟩ := q
    by_cases h : m = n
    · rw [prependRun, if_pos h]
      rw [List.chain'_cons'] at hC ⊢
      refine ⟨?_, hC.2⟩
      intro b hb
      have := hC.1 b hb
      simpa [h] using this
    · rw [prependRun, if_neg h]
      rw [List.chain'_cons]
      exact ⟨fun hnm => h hnm.symm, hC⟩

theorem specChunkRuns_chain (gs : List Glyph) :
    List.Chain' (fun a b => a.1 ≠ b.1) (specChunkRuns gs) := by
  induction gs with
  | nil => simp [specChunkRuns]
  | cons g rest ih => exact prependRun_chain ih

/-! ## Lemmas about `get_font`, `shape` and `shape_cached` -/

theorem get_font_blob_cache {env : Env} {s : CachingShaper} {fk : FontKey}
    {coll : FontCollection} {s' : CachingShaper}
    (h : get_font env s fk = some (coll, s')) : s'.blob_cache = s.blob_cache := by
  simp only [get_font] at h
  split at h
  · exact absurd h (by simp)
  · split at h
    · injection h with h1
      injection h1 with h2 h3
      subst h3
      rfl
    · exact absurd h (by simp)

theorem get_font_emoji_missing {env : Env} {s : CachingShaper} {k : FontKey}
    (hmiss : s.font_cache.contains k = false)
    (hemoji : env.selectFamily "Segoe UI Emoji" = none) :
    get_font env s k = none := by
  simp [get_font, hmiss, hemoji]

theorem get_font_primary_missing {env : Env} {s : CachingShaper} {k : FontKey}
    {e : LoadedFont} (hmiss : s.font_cache.contains k = false)
    (hemoji : env.selectFamily "Segoe UI Emoji" = some e)
    (hprim : env.selectFamily k.name = none) :
    get_font env s k = none := by
  simp [get_font, hmiss, hemoji, hprim]

theorem shape_blob_cache {env : Env} {s : CachingShaper} {text font_name : String}
    {base_size : F32} {scale : Nat} {bold italic : Bool}
    {bl : List (String × TextBlob)} {s' : CachingShaper}
    (h : shape env s text font_name base_size scale bold italic = some (bl, s')) :
    s'.blob_cache = s.blob_cache := by
  simp only [shape] at h
  split at h
  · exact absurd h (by simp)
  · rename_i coll s1 hg
    split at h
    · exact absurd h (by simp)
    · injection h with h1
      injection h1 with h2 h3
      subst h3
      exact get_font_blob_cache hg

theorem shape_cached_lookup_result {env : Env} {s : CachingShaper}
    {text font_name : String} {base_size : F32} {scale : Nat} {bold italic : Bool}
    {r : List (String × TextBlob)} {s' : CachingShaper} {n : Nat}
    (h : shape_cached env s text font_name base_size scale bold italic = some (r, s', n)) :
    s'.blob_cache.lookup (shapeKeyOf text font_name base_size scale bold italic) = some r := by
  simp only [shape_cached] at h
  split at h
  · split at h
    · rename_i v bc hget
      injection h with h1
      injection h1 with h2 h3
      injection h3 with h4 h5
      subst h2; subst h4
      exact Lru.get_lookup_self hget
    · exact absurd h (by simp)
  · split at h
    · exact absurd h (by simp)
    · split at h
      · rename_i v bc hget
        injection h with h1
        injection h1 with h2 h3
        injection h3 with h4 h5
        subst h2; subst h4
        exact Lru.get_lookup_self hget
      · exact absurd h (by simp)

theorem shape_cached_hit_of_lookup {env : Env} {s : CachingShaper}
    {text font_name : String} {base_size : F32} {scale : Nat} {bold italic : Bool}
    {r : List (String × TextBlob)}
    (h : s.blob_cache.lookup (shapeKeyOf text font_name base_size scale bold italic) = some r) :
    shape_cached env s text font_name base_size scale bold italic
      = some (r,
          ⟨s.font_cache,
           ⟨s.blob_cache.cap,
            (shapeKeyOf text font_name base_size scale bold italic, r) ::
              s.blob_cache.entries.filter
                (fun e => !decide (e.1 = shapeKeyOf text font_name base_size scale bold italic))⟩⟩,
          0) := by
  simp only [shape_cached]
  rw [if_pos (by simp [Lru.contains_of_lookup h]), Lru.get_of_lookup h]

/-! ## Claim theorems -/

/-- C1: two consecutive `shape_cached` calls with the same text and font
identity return value-equal results, and the second call performs zero
invocations of `shape` (the instrumentation counter of the second call
is 0, so the layout engine is not called again). -/
theorem shape_cached_second_call_hits :
    ∀ (env : Env) (s : CachingShaper) (text font_name : String) (base_size : F32)
      (scale : Nat) (bold italic : Bool) (r1 : List (String × TextBlob))
      (s1 : CachingShaper) (n1 : Nat),
      shape_cached env s text font_name base_size scale bold italic = some (r1, s1, n1) →
      ∃ s2, shape_cached env s1 text font_name base_size scale bold italic = some (r1, s2, 0) := by
  intro env s text fn bs sc b i r1 s1 n1 h
  exact ⟨_, shape_cached_hit_of_lookup (shape_cached_lookup_result h)⟩

/-- Witness for C1: in `envW` the first call on a fresh shaper succeeds
(with one `shape` invocation), and the theorem then yields the hit. -/
theorem shape_cached_second_call_hits_witness :
    shape_cached envW CachingShaper.new "a" "W" (F32.num 2) 1 false false
        = some ([], s1W, 1)
    ∧ ∃ s2, shape_cached envW s1W "a" "W" (F32.num 2) 1 false false = some ([], s2, 0) :=
  ⟨by decide,
   shape_cached_second_call_hits envW CachingShaper.new "a" "W" (F32.num 2) 1 false false
     [] s1W 1 (by decide)⟩

/-- C2 counterexample: the size inputs `0.0` and `-0.0` are numerically
equal (IEEE-754 `==` holds between them), yet `base_size.to_string()`
renders them as "0" and "-0", so the two `FontKey` cache keys are
different — they address different cache entries, refuting the claim that
numerically equal size inputs always yield the same key. -/
theorem font_key_negative_zero_cex :
    F32.numEq (F32.num 0) F32.negZero
    ∧ fontKeyOf "FiraCode" (F32.num 0) 1 false false
        ≠ fontKeyOf "FiraCode" F32.negZero 1 false false := by
  decide

/-- C2 amended: for size inputs that are numerically equal and agree on
being (or not being) negative zero — in particular any two equal positive
floats, such as the values parsed from "12.0" and "12.00" — the built
`FontKey`s are equal (and, the key's hash being derived from its fields,
hash identically).  Only the pair +0.0 / −0.0 escapes. -/
theorem font_key_eq_of_numEq_same_zero_sign :
    ∀ (font_name : String) (a b : F32) (scale : Nat) (bold italic : Bool),
      F32.numEq a b → (a = F32.negZero ↔ b = F32.negZero) →
      fontKeyOf font_name a scale bold italic = fontKeyOf font_name b scale bold italic := by
  intro fn a b sc bo it hnum hsign
  cases a with
  | negZero =>
    cases b with
    | negZero => rfl
    | num q => exact absurd (hsign.mp rfl) (by simp)
  | num q =>
    cases b with
    | num p =>
      have hq : q = p := hnum
      rw [hq]
    | negZero => exact absurd (hsign.mpr rfl) (by simp)

/-- Witness for the amended C2 at size 12. -/
theorem font_key_eq_of_numEq_same_zero_sign_witness :
    F32.numEq (F32.num 12) (F32.num 12)
    ∧ fontKeyOf "FiraCode" (F32.num 12) 2 true false
        = fontKeyOf "FiraCode" (F32.num 12) 2 true false :=
  ⟨by decide,
   font_key_eq_of_numEq_same_zero_sign "FiraCode" (F32.num 12) (F32.num 12) 2 true false
     (by decide) (by decide)⟩

/-- C3: the segmentation inside `shape` produces exactly the maximal
contiguous same-font-name chunking of the layout engine's glyph sequence
(`specChunkRuns`, written from the spec's words): the blob list equals the
chunking's labelled runs; the chunking concatenates back to the input,
every chunk is non-empty and uniformly labelled, and adjacent chunks carry
different font names (maximality); in particular the synthetic sequence
with fonts [A,A,B,B,B,A] yields exactly 3 runs of lengths [2,3,1]
labelled [A,B,A]. -/
theorem shape_segments_maximal_same_font_runs :
    (∀ (bs : ℚ) (gs : List Glyph),
        shapeGlyphs bs gs
          = some ((specChunkRuns gs).map (fun p => (p.1, blobOfRun p.2 bs))))
    ∧ (∀ gs : List Glyph,
        (specChunkRuns gs).flatMap (·.2) = gs
        ∧ List.Chain' (fun a b => a.1 ≠ b.1) (specChunkRuns gs)
        ∧ ((specChunkRuns gs).all
            (fun p => !p.2.isEmpty && p.2.all (fun g => g.fontName == p.1))) = true)
    ∧ (shapeGlyphs 1 glyphsAABBBA).map
        (fun l => l.map (fun nb => (nb.1, nb.2.glyphIds.length)))
        = some [("A", 2), ("B", 3), ("A", 1)] := by
  refine ⟨shapeGlyphs_eq_chunks, ?_, by decide⟩
  intro gs
  refine ⟨specChunkRuns_flat gs, specChunkRuns_chain gs, ?_⟩
  rw [List.all_eq_true]
  intro p hp
  obtain ⟨hne, hlab⟩ := specChunkRuns_wf gs p hp
  simp only [Bool.and_eq_true, List.all_eq_true]
  exact ⟨by simp [List.isEmpty_iff, hne], fun g hg => by simp [hlab g hg]⟩

/-- C4 as claimed is refuted: when the reference string shapes to fewer
than 2 glyphs, `font_base_dimensions` does not produce a recoverable
`InsufficientGlyphsError` value — it `unwrap()`s the `max_by_key` of an
empty advance table, a panic (process abort, modelled `none`). -/
theorem font_base_dimensions_one_glyph_aborts_cex :
    (envC4.layout_run (12 : ℚ) [fontW, fontW] standard_character_string).length = 1
    ∧ font_base_dimensions envC4 CachingShaper.new flC4 = none := by
  decide

/-- C4 amended: whenever the fonts resolve but the reference string lays
out to fewer than 2 glyphs, `font_base_dimensions` panics (`unwrap` on an
empty `max_by_key`, modelled as `none`) instead of returning any value. -/
theorem font_base_dimensions_insufficient_glyphs_panics :
    ∀ (env : Env) (s : CachingShaper) (fl : FontLookup) (coll : FontCollection)
      (s1 : CachingShaper),
      get_font env s (fontKeyOf fl.name fl.base_size 1 false false) = some (coll, s1) →
      (env.layout_run fl.base_size.val coll standard_character_string).length < 2 →
      font_base_dimensions env s fl = none := by
  intro env s fl coll s1 hg hlen
  have hadv : advancesOf ((env.layout_run fl.base_size.val coll standard_character_string).map
      (fun x => x.offsetX)) = [] := by
    rcases hgs : env.layout_run fl.base_size.val coll standard_character_string with _ | ⟨a, _ | ⟨c, t⟩⟩
    · rfl
    · rfl
    · rw [hgs] at hlen
      simp only [List.length_cons] at hlen
      omega
  simp only [font_base_dimensions]
  rw [hg]
  dsimp only
  rw [hadv]
  rfl

/-- Witness for the amended C4 in `envC4` (one glyph laid out). -/
theorem font_base_dimensions_insufficient_glyphs_panics_witness :
    get_font envC4 CachingShaper.new fkC4 = some ([fontW, fontW], sC4)
    ∧ (envC4.layout_run (F32.num 12).val [fontW, fontW] standard_character_string).length < 2
    ∧ font_base_dimensions envC4 CachingShaper.new flC4 = none :=
  ⟨by decide, by decide,
   font_base_dimensions_insufficient_glyphs_panics envC4 CachingShaper.new flC4
     [fontW, fontW] sC4 (by decide) (by decide)⟩

/-- C5 as claimed is refuted: on a `get_font` cache miss where the
emoji-fallback family fails to load, the request does not degrade to a
collection without emoji support — the source `.expect`s the fallback
lookup, a panic (process abort, modelled `none`), even though the primary
family resolves fine. -/
theorem get_font_emoji_failure_aborts_cex :
    envC5.selectFamily "MonoFont" = some fontW
    ∧ envC5.selectFamily "Segoe UI Emoji" = none
    ∧ get_font envC5 CachingShaper.new kC5 = none := by
  decide

/-- C5 amended: on a font-cache miss, a failing emoji-fallback load makes
`get_font` panic (abort), regardless of the primary family. -/
theorem get_font_emoji_failure_panics :
    ∀ (env : Env) (s : CachingShaper) (k : FontKey),
      s.font_cache.contains k = false →
      env.selectFamily "Segoe UI Emoji" = none →
      get_font env s k = none := by
  intro env s k hmiss hemoji
  exact get_font_emoji_missing hmiss hemoji

/-- Witness for the amended C5 in `envC5`. -/
theorem get_font_emoji_failure_panics_witness :
    CachingShaper.new.font_cache.contains kC5 = false
    ∧ envC5.selectFamily "Segoe UI Emoji" = none
    ∧ get_font envC5 CachingShaper.new kC5 = none :=
  ⟨by decide, by decide,
   get_font_emoji_failure_panics envC5 CachingShaper.new kC5 (by decide) (by decide)⟩

/-- C6 as claimed is refuted: on a `get_font` cache miss where the primary
(requested) family cannot be located, the failure does not surface as a
recoverable `FontLoadError` value — the source `.expect`s the lookup, a
panic (process abort, modelled `none`); no error value exists in the
code's return type at all. -/
theorem get_font_primary_failure_aborts_cex :
    envC6.selectFamily "Segoe UI Emoji" = some fontW
    ∧ envC6.selectFamily "MissingFont" = none
    ∧ get_font envC6 CachingShaper.new kC6 = none := by
  decide

/-- C6 amended: on a font-cache miss with the emoji fallback available,
a missing or unloadable primary family makes `get_font` panic (abort)
rather than return a recoverable error value. -/
theorem get_font_primary_failure_panics :
    ∀ (env : Env) (s : CachingShaper) (k : FontKey) (e : LoadedFont),
      s.font_cache.contains k = false →
      env.selectFamily "Segoe UI Emoji" = some e →
      env.selectFamily k.name = none →
      get_font env s k = none := by
  intro env s k e hmiss hemoji hprim
  exact get_font_primary_missing hmiss hemoji hprim

/-- Witness for the amended C6 in `envC6`. -/
theorem get_font_primary_failure_panics_witness :
    CachingShaper.new.font_cache.contains kC6 = false
    ∧ envC6.selectFamily "Segoe UI Emoji" = some fontW
    ∧ envC6.selectFamily kC6.name = none
    ∧ get_font envC6 CachingShaper.new kC6 = none :=
  ⟨by decide, by decide, by decide,
   get_font_primary_failure_panics envC6 CachingShaper.new kC6 fontW
     (by decide) (by decide) (by decide)⟩

/-- C7: with glyph offsets [0,5,10,15,22,27,33] the consecutive deltas are
the advance multiset [5,5,5,7,5,6]; 5 is its strict statistical mode (its
count beats every other advance's count, so the `max_by_key` pick is
independent of the hash-map iteration order), and `font_base_dimensions`
selects 5 as the cell width. -/
theorem font_base_dimensions_mode_five :
    advancesOf [0, 5, 10, 15, 22, 27, 33] = [5, 5, 5, 7, 5, 6]
    ∧ (([5, 5, 5, 7, 5, 6] : List ℚ).all
        (fun q => q == 5
          || decide (([5, 5, 5, 7, 5, 6] : List ℚ).count q
               < ([5, 5, 5, 7, 5, 6] : List ℚ).count 5))) = true
    ∧ (font_base_dimensions envC7 CachingShaper.new flC7).map (fun r => r.1.1) = some 5 := by
  have hA : advancesOf [0, 5, 10, 15, 22, 27, 33] = [5, 5, 5, 7, 5, 6] := by
    norm_num [advancesOf]
  refine ⟨hA, by decide, ?_⟩
  have h1 : get_font envC7 CachingShaper.new (fontKeyOf flC7.name flC7.base_size 1 false false)
      = some (collC7, sC7) := by decide
  simp only [font_base_dimensions]
  rw [h1]
  dsimp only
  have h2 : (envC7.layout_run flC7.base_size.val collC7 standard_character_string).map
      (fun x => x.offsetX) = [0, 5, 10, 15, 22, 27, 33] := by
    simp [envC7, gOff]
  rw [h2, hA]
  decide

/-- C8: `clear` unconditionally empties both caches, and any
`shape_cached` call that succeeds on a cleared shaper is a miss: it
performs exactly one fresh `shape` invocation. -/
theorem clear_empties_caches_and_forces_fresh_shape :
    ∀ (s : CachingShaper),
      ((CachingShaper.clear s).font_cache.entries = []
        ∧ (CachingShaper.clear s).blob_cache.entries = [])
      ∧ ∀ (env : Env) (text font_name : String) (base_size : F32) (scale : Nat)
          (bold italic : Bool) (r : List (String × TextBlob)) (s' : CachingShaper) (n : Nat),
          shape_cached env (CachingShaper.clear s) text font_name base_size scale bold italic
              = some (r, s', n) →
          n = 1 := by
  intro s
  refine ⟨⟨rfl, rfl⟩, ?_⟩
  intro env text fn bs sc b i r s' n h
  simp only [shape_cached] at h
  rw [if_neg (by simp [Lru.contains, Lru.lookup, CachingShaper.clear, Lru.clear])] at h
  split at h
  · exact absurd h (by simp)
  · split at h
    · injection h with h1
      injection h1 with h2 h3
      injection h3 with h4 h5
      exact h5.symm
    · exact absurd h (by simp)

/-- Witness for C8: clearing the fresh shaper and shaping in `envW`
performs one `shape` call. -/
theorem clear_empties_caches_and_forces_fresh_shape_witness :
    shape_cached envW (CachingShaper.clear CachingShaper.new) "a" "W" (F32.num 2) 1 false false
        = some ([], s1W, 1)
    ∧ (1 : Nat) = 1 :=
  ⟨by decide,
   (clear_empties_caches_and_forces_fresh_shape CachingShaper.new).2 envW "a" "W"
     (F32.num 2) 1 false false [] s1W 1 (by decide)⟩

/-- C9: when the fonts resolve and the layout engine returns no glyphs
(in particular for empty input text), `shape` returns the empty
`ShapeResult` (no runs) without failing, and on a cache miss
`shape_cached` returns the same empty result. -/
theorem shape_empty_glyphs_empty_result :
    ∀ (env : Env) (s : CachingShaper) (text font_name : String) (base_size : F32)
      (scale : Nat) (bold italic : Bool) (coll : FontCollection) (s1 : CachingShaper),
      get_font env s (fontKeyOf font_name base_size scale bold italic) = some (coll, s1) →
      env.layout (base_size.val * (scale : ℚ)) coll text = [] →
      (shape env s text font_name base_size scale bold italic = some ([], s1)
       ∧ (s.blob_cache.contains (shapeKeyOf text font_name base_size scale bold italic) = false →
           0 < s.blob_cache.cap →
           ∃ s2, shape_cached env s text font_name base_size scale bold italic
               = some ([], s2, 1))) := by
  intro env s text fn bs sc b i coll s1 hg hl
  have hshape : shape env s text fn bs sc b i = some ([], s1) := by
    simp only [shape]
    rw [hg]
    dsimp only
    rw [hl]
    rfl
  refine ⟨hshape, ?_⟩
  intro hmiss hcap
  simp only [shape_cached]
  rw [if_neg (by simp [hmiss]), hshape]
  dsimp only
  have hbc : s1.blob_cache = s.blob_cache := get_font_blob_cache hg
  have hput : ((s1.blob_cache.put (shapeKeyOf text fn bs sc b i) []).lookup
      (shapeKeyOf text fn bs sc b i)) = some [] :=
    Lru.put_lookup_self _ _ _ (by rw [hbc]; exact hcap)
  rw [Lru.get_of_lookup hput]
  exact ⟨_, rfl⟩

/-- Witness for C9: empty text in `envW` yields the empty result through
both `shape` and `shape_cached`. -/
theorem shape_empty_glyphs_empty_result_witness :
    shape envW CachingShaper.new "" "W" (F32.num 2) 1 false false = some ([], sFW)
    ∧ ∃ s2, shape_cached envW CachingShaper.new "" "W" (F32.num 2) 1 false false
        = some ([], s2, 1) :=
  ⟨(shape_empty_glyphs_empty_result envW CachingShaper.new "" "W" (F32.num 2) 1 false false
      collW sFW (by decide) (by decide)).1,
   (shape_empty_glyphs_empty_result envW CachingShaper.new "" "W" (F32.num 2) 1 false false
      collW sFW (by decide) (by decide)).2 (by decide) (by decide)⟩

/-- C10: a direct `shape` call never reads or writes the shape-result
cache: whenever it returns, the resulting state's `blob_cache` (contents
and recency order alike) is exactly the input state's; the same holds for
`get_font` and `font_base_dimensions`, so of the public operations only
`shape_cached` and `clear` mutate `blob_cache`. -/
theorem shape_never_touches_blob_cache :
    ∀ (env : Env) (s : CachingShaper),
      (∀ (text font_name : String) (base_size : F32) (scale : Nat) (bold italic : Bool)
         (bl : List (String × TextBlob)) (s' : CachingShaper),
         shape env s text font_name base_size scale bold italic = some (bl, s') →
         s'.blob_cache = s.blob_cache)
      ∧ (∀ (k : FontKey) (coll : FontCollection) (s' : CachingShaper),
           get_font env s k = some (coll, s') → s'.blob_cache = s.blob_cache)
      ∧ (∀ (fl : FontLookup) (r : ℚ × ℚ) (s' : CachingShaper),
           font_base_dimensions env s fl = some (r, s') → s'.blob_cache = s.blob_cache) := by
  intro env s
  refine ⟨fun _ _ _ _ _ _ _ _ h => shape_blob_cache h,
          fun _ _ _ h => get_font_blob_cache h, ?_⟩
  intro fl r s' h
  simp only [font_base_dimensions] at h
  split at h
  · exact absurd h (by simp)
  · rename_i coll s1 hg
    split at h
    · exact absurd h (by simp)
    · injection h with h1
      injection h1 with h2 h3
      subst h3
      exact get_font_blob_cache hg

/-- Witness for C10: the concrete empty-text `shape` call in `envW` leaves
the blob cache untouched. -/
theorem shape_never_touches_blob_cache_witness :
    shape envW CachingShaper.new "" "W" (F32.num 2) 1 false false = some ([], sFW)
    ∧ sFW.blob_cache = CachingShaper.new.blob_cache :=
  ⟨by decide,
   (shape_never_touches_blob_cache envW CachingShaper.new).1 "" "W" (F32.num 2) 1 false false
     [] sFW (by decide)⟩

end CachingShaperModel
